import Mathlib

/-!
Shallow embedding of the ggen command-line tool
(src/tools/ggen-cli/src/main.rs) together with a spec-modelled graph
store and inference engine for the parts of the specified core that are
absent from the source tree.  The CLI embedding mirrors the Rust source
line by line: the clap `Commands` enum, the defaulting of the `mode`
flag, and the body of `main`, whose observable behaviour is captured as
a trace of effects plus a result value.
-/

namespace Ggen

/-- Observable side effects of one program run.  The stub only ever
prints lines to standard output; the filesystem constructors exist so
that the absence of any filesystem mutation is a statement about the
produced trace rather than an artefact of the trace type. -/
inductive Effect where
  | print (line : String)
  | fsWrite (path : String) (content : String)
  | fsDelete (path : String)
  deriving DecidableEq, Repr

/-- The clap subcommand enum of main.rs (lines 13-44): a `Sync` variant
carrying the six parsed flags (`from`, `to`, `mode`, `dry_run`, `force`,
`verbose`; the Rust field `from` is a Lean keyword and is rendered
`fromDir`, likewise `to` as `toDir`), and a `Version` variant. -/
inductive Commands where
  | Sync (fromDir : Option String) (toDir : Option String) (mode : String)
      (dry_run : Bool) (force : Bool) (verbose : Bool)
  | Version
  deriving DecidableEq, Repr

/-- Raw command-line state of the Sync flags before clap applies
defaults: each value flag is present or absent; boolean flags are
present or not. -/
structure RawSyncFlags where
  fromDir : Option String
  toDir : Option String
  mode : Option String
  dry_run : Bool
  force : Bool
  verbose : Bool
  deriving DecidableEq, Repr

/-- Embedding of clap argument processing for the Sync subcommand
(main.rs lines 16-39).  The `mode` flag is declared as a plain `String`
with `default_value = "full"` and no value restriction, so parsing
substitutes "full" when the flag is absent and otherwise passes any
supplied string through unchanged; it can never fail on the mode
value. -/
def parseSync (r : RawSyncFlags) : Except String Commands :=
  Except.ok (Commands.Sync r.fromDir r.toDir (r.mode.getD "full")
    r.dry_run r.force r.verbose)

/-- Rust Display formatting of a bool, as produced by the placeholder
in a println call. -/
def rustBool (b : Bool) : String := if b then "true" else "false"

/-- Escaping of one character under Rust Debug formatting of strings.
Quote, backslash and the common control characters are escaped; the
remaining characters print as themselves. -/
def rustDebugEscapeChar (c : Char) : String :=
  if c = '"' then "\\\""
  else if c = '\\' then "\\\\"
  else if c = '\n' then "\\n"
  else if c = '\t' then "\\t"
  else if c = '\r' then "\\r"
  else String.singleton c

/-- Rust Debug formatting of a string, as produced by a debug
placeholder in a println call: the escaped contents wrapped in double
quotes. -/
def rustDebug (s : String) : String :=
  "\"" ++ String.join (s.data.map rustDebugEscapeChar) ++ "\""

/-- Embedding of `main` (main.rs lines 46-74): each println call of the
source becomes one print effect carrying the formatted text, and the
returned value of `main` is the second component.  The Sync arm prints
the echo block, the stub warning and the next-steps list; the Version
arm prints the version banner.  Both arms end in `Ok(())`. -/
def ggenMain : Commands → List Effect × Except String Unit
  | Commands.Sync fromDir toDir mode dry_run force verbose =>
    ([Effect.print "ggen sync",
      Effect.print ("  from: " ++ rustDebug (fromDir.getD ".")),
      Effect.print ("  to: " ++ rustDebug (toDir.getD "generated/")),
      Effect.print ("  mode: " ++ mode),
      Effect.print ("  dry-run: " ++ rustBool dry_run),
      Effect.print ("  force: " ++ rustBool force),
      Effect.print ("  verbose: " ++ rustBool verbose),
      Effect.print "\n⚠ ggen ontology compilation not yet implemented",
      Effect.print "This is a CLI wrapper - core compilation logic pending",
      Effect.print "\nNext steps:",
      Effect.print "  1. Implement RDF parser using ggen-core",
      Effect.print "  2. Implement SPARQL inference",
      Effect.print "  3. Implement Tera template rendering",
      Effect.print "  4. Generate code to output directory"],
     Except.ok ())
  | Commands.Version =>
    ([Effect.print "ggen 5.0.0",
      Effect.print "Ontology compiler for spec-driven development"],
     Except.ok ())

/-- The filesystem-mutating effects of a trace (everything that is not
a print). -/
def fsMutations (es : List Effect) : List Effect :=
  es.filter fun e =>
    match e with
    | Effect.print _ => false
    | _ => true

/-- Modelled from the spec: the Triple data model of section 3 — a
(subject, predicate, object) statement, the atomic unit of the ontology
graph.  The graph store itself is absent from the source tree; only the
stub CLI exists. -/
structure Triple where
  subj : String
  pred : String
  obj : String
  deriving DecidableEq, Repr

/-- Modelled from the spec: a graph is a set of Triples with no
duplicates (section 3). -/
abbrev Graph := Finset Triple

/-- Modelled from the spec: the graph store merge operation of section
4.1, combining the triple sets of two graphs with duplicate triples
collapsing.  The operation is absent from the source tree. -/
def merge (a b : Graph) : Graph := a ∪ b

/-- Modelled from the spec: a Rule of section 4.2 — a named
pattern-match-and-produce transformation that, given the current triple
set, yields candidate new triples. -/
structure Rule where
  name : String
  apply : Graph → Graph

/-- One inference iteration: the union of the candidate triples
produced by every rule of the ruleset over the current triple set. -/
def applyRules (rules : List Rule) (g : Graph) : Graph :=
  rules.foldl (fun acc r => acc ∪ r.apply g) ∅

/-- Modelled from the spec: the inference error of sections 4.2 and 7,
raised when the rule fixed point is not reached within the configured
bound, naming the offending rule. -/
inductive InferError where
  | NonTerminatingInferenceError (ruleName : String)
  deriving DecidableEq, Repr

/-- The name of the last rule of the ruleset that still produces
triples outside the current graph, if any. -/
def lastProducing (rules : List Rule) (g : Graph) : Option String :=
  ((rules.filter fun r => decide (¬ r.apply g ⊆ g)).getLast?).map Rule.name

/-- Modelled from the spec: the fixed-point iteration of section 4.2.
Each step applies all rules over the current triple set; when an
iteration adds zero new triples the graph is returned, and when the
remaining iteration budget is exhausted while rules still produce new
triples the computation fails, naming the last rule that still produced
new facts. -/
def inferAux (rules : List Rule) : Nat → Graph → Except InferError Graph
  | 0, g =>
    if applyRules rules g ⊆ g then Except.ok g
    else Except.error (InferError.NonTerminatingInferenceError
      ((lastProducing rules g).getD ""))
  | Nat.succ fuel, g =>
    if applyRules rules g ⊆ g then Except.ok g
    else inferAux rules fuel (g ∪ applyRules rules g)

/-- Modelled from the spec: the infer operation of section 4.2, absent
from the source tree — iterate rule application up to the configured
maximum iteration count. -/
def infer (g : Graph) (rules : List Rule) (maxIterations : Nat) :
    Except InferError Graph :=
  inferAux rules maxIterations g

lemma subset_foldl_union (g : Graph) :
    ∀ (rules : List Rule) (acc : Graph),
      acc ⊆ rules.foldl (fun a r => a ∪ r.apply g) acc := by
  intro rules
  induction rules with
  | nil => intro acc; simp
  | cons r rest ih =>
    intro acc
    calc acc ⊆ acc ∪ r.apply g := Finset.subset_union_left
      _ ⊆ rest.foldl (fun a q => a ∪ q.apply g) (acc ∪ r.apply g) := ih _

lemma rule_subset_applyRules (g : Graph) (r : Rule) :
    ∀ (rules : List Rule) (acc : Graph), r ∈ rules →
      r.apply g ⊆ rules.foldl (fun a q => a ∪ q.apply g) acc := by
  intro rules
  induction rules with
  | nil => intro acc h; cases h
  | cons q rest ih =>
    intro acc h
    rcases List.mem_cons.mp h with h | h
    · subst h
      calc r.apply g ⊆ acc ∪ r.apply g := Finset.subset_union_right
        _ ⊆ rest.foldl (fun a q => a ∪ q.apply g) (acc ∪ r.apply g) :=
          subset_foldl_union g rest _
    · exact ih _ h

lemma closed_of_applyRules_subset {rules : List Rule} {g : Graph}
    (h : applyRules rules g ⊆ g) : ∀ r ∈ rules, r.apply g ⊆ g :=
  fun r hr => (rule_subset_applyRules g r rules ∅ hr).trans h

end Ggen

namespace Ggen

/-- C1: every sync invocation, whatever the six flag values, prints the
stub line saying ontology compilation is not yet implemented, and its
effect trace contains no filesystem mutation of any kind. -/
theorem sync_always_stub_and_pure (fromDir toDir : Option String)
    (mode : String) (dry_run force verbose : Bool) :
    Effect.print "\n⚠ ggen ontology compilation not yet implemented" ∈
      (ggenMain (Commands.Sync fromDir toDir mode dry_run force verbose)).1 ∧
    fsMutations
      (ggenMain (Commands.Sync fromDir toDir mode dry_run force verbose)).1
      = [] := by
  constructor
  · simp [ggenMain]
  · simp [ggenMain, fsMutations]

/-- C2 counterexample: the mode flag is not restricted to the three
documented values; the string "banana" is accepted by sync argument
parsing and passed through unchanged. -/
theorem mode_not_restricted_counterexample :
    parseSync { fromDir := none, toDir := none, mode := some "banana",
                dry_run := false, force := false, verbose := false } =
      Except.ok (Commands.Sync none none "banana" false false false) ∧
    "banana" ≠ "full" ∧ "banana" ≠ "incremental" ∧ "banana" ≠ "verify" := by
  refine ⟨rfl, ?_, ?_, ?_⟩ <;> decide

/-- C2 amended: the mode flag defaults to "full" when omitted, and any
supplied value, restricted or not, is accepted and passed through
unchanged; the three documented modes are not enforced by parsing. -/
theorem mode_default_full_any_value_accepted (r : RawSyncFlags) :
    (r.mode = none →
      parseSync r = Except.ok (Commands.Sync r.fromDir r.toDir "full"
        r.dry_run r.force r.verbose)) ∧
    (∀ s, r.mode = some s →
      parseSync r = Except.ok (Commands.Sync r.fromDir r.toDir s
        r.dry_run r.force r.verbose)) := by
  constructor
  · intro h
    simp [parseSync, h]
  · intro s h
    simp [parseSync, h]

/-- C2 witness: applying the amended theorem at a concrete flag record
with the mode flag omitted yields mode "full". -/
theorem mode_default_full_witness :
    parseSync { fromDir := none, toDir := none, mode := none,
                dry_run := false, force := false, verbose := false } =
      Except.ok (Commands.Sync none none "full" false false false) :=
  (mode_default_full_any_value_accepted
    { fromDir := none, toDir := none, mode := none,
      dry_run := false, force := false, verbose := false }).1 rfl

/-- C3 counterexample: a sync invocation with the unrecognized mode
string "bogus" still returns Ok, so the program does silently accept
invalid input and report success. -/
theorem bogus_mode_returns_ok :
    (ggenMain (Commands.Sync none none "bogus" false false false)).2 =
      Except.ok () := rfl

/-- C3 amended: the stub performs no input validation at all: every
sync invocation, including one with an unrecognized mode string,
returns Ok; fail-fast typed-error propagation is a contract for the
unimplemented core stages, not honoured by the current program. -/
theorem no_validation_sync_always_ok (fromDir toDir : Option String)
    (mode : String) (dry_run force verbose : Bool) :
    (ggenMain (Commands.Sync fromDir toDir mode dry_run force verbose)).2 =
      Except.ok () := rfl

/-- C4: a sync invocation with dry_run set, or with mode "verify",
produces an effect trace with no filesystem mutation (as indeed does
every other invocation of the stub). -/
theorem dry_run_or_verify_mutates_nothing (fromDir toDir : Option String)
    (mode : String) (dry_run force verbose : Bool)
    (_h : dry_run = true ∨ mode = "verify") :
    fsMutations
      (ggenMain (Commands.Sync fromDir toDir mode dry_run force verbose)).1
      = [] := by
  simp [ggenMain, fsMutations]

/-- C4 witness: the theorem applied to a concrete verify-mode
invocation. -/
theorem dry_run_or_verify_mutates_nothing_witness :
    fsMutations
      (ggenMain (Commands.Sync none none "verify" false false false)).1
      = [] :=
  dry_run_or_verify_mutates_nothing none none "verify" false false false
    (Or.inr rfl)

/-- C5: the command enum has exactly the two subcommands: every value
is either a Sync carrying the six parsed flags (from, to, mode,
dry_run, force, verbose) or Version. -/
theorem commands_exactly_sync_and_version (c : Commands) :
    (∃ fromDir toDir mode dry_run force verbose,
      c = Commands.Sync fromDir toDir mode dry_run force verbose) ∨
    c = Commands.Version := by
  cases c with
  | Sync f t m d fo v => exact Or.inl ⟨f, t, m, d, fo, v, rfl⟩
  | Version => exact Or.inr rfl

/-- C8: the from line of a sync run reports "." when the flag is
omitted and the supplied value when present; the to line reports
"generated/" when omitted and the supplied value when present (values
appear under Rust Debug quoting, as in the source). -/
theorem sync_reported_directories (fromDir toDir : Option String)
    (mode : String) (d f v : Bool) :
    ((ggenMain (Commands.Sync none toDir mode d f v)).1.get? 1 =
       some (Effect.print ("  from: " ++ rustDebug "."))) ∧
    ((ggenMain (Commands.Sync fromDir none mode d f v)).1.get? 2 =
       some (Effect.print ("  to: " ++ rustDebug "generated/"))) ∧
    (∀ s, (ggenMain (Commands.Sync (some s) toDir mode d f v)).1.get? 1 =
       some (Effect.print ("  from: " ++ rustDebug s))) ∧
    (∀ s, (ggenMain (Commands.Sync fromDir (some s) mode d f v)).1.get? 2 =
       some (Effect.print ("  to: " ++ rustDebug s))) := by
  refine ⟨rfl, rfl, fun s => rfl, fun s => rfl⟩

/-- C9: for every parsed command, main returns Ok. -/
theorem main_always_ok (c : Commands) :
    (ggenMain c).2 = Except.ok () := by
  cases c <;> rfl

/-- C10: the program is deterministic: two runs on equal parsed
arguments produce the same effect trace (hence byte-identical standard
output) and the same return value. -/
theorem deterministic_runs (a b : Commands) (h : a = b) :
    (ggenMain a).1 = (ggenMain b).1 ∧ (ggenMain a).2 = (ggenMain b).2 := by
  subst h
  exact ⟨rfl, rfl⟩

/-- C10 witness: the theorem applied to two identical version
invocations. -/
theorem deterministic_runs_witness :
    (ggenMain Commands.Version).1 = (ggenMain Commands.Version).1 ∧
    (ggenMain Commands.Version).2 = (ggenMain Commands.Version).2 :=
  deterministic_runs Commands.Version Commands.Version rfl

/-- C6: for every graph, ruleset and iteration bound, infer either
returns a superset graph closed under the ruleset (no rule application
adds a new triple) or fails with NonTerminatingInferenceError; being a
total function of a finite iteration budget, it never runs
unboundedly. -/
theorem infer_terminates_or_errors (g : Graph) (rules : List Rule)
    (maxIterations : Nat) :
    (∃ g', infer g rules maxIterations = Except.ok g' ∧ g ⊆ g' ∧
      ∀ r ∈ rules, r.apply g' ⊆ g') ∨
    (∃ n, infer g rules maxIterations = Except.error
      (InferError.NonTerminatingInferenceError n)) := by
  unfold infer
  induction maxIterations generalizing g with
  | zero =>
    by_cases h : applyRules rules g ⊆ g
    · exact Or.inl ⟨g, by simp [inferAux, h], Finset.Subset.refl g,
        closed_of_applyRules_subset h⟩
    · exact Or.inr ⟨(lastProducing rules g).getD "", by simp [inferAux, h]⟩
  | succ fuel ih =>
    by_cases h : applyRules rules g ⊆ g
    · exact Or.inl ⟨g, by simp [inferAux, h], Finset.Subset.refl g,
        closed_of_applyRules_subset h⟩
    · have step : inferAux rules (Nat.succ fuel) g =
        inferAux rules fuel (g ∪ applyRules rules g) := by
        simp [inferAux, h]
      rcases ih (g ∪ applyRules rules g) with ⟨g', hok, hsub, hcl⟩ | ⟨n, herr⟩
      · exact Or.inl ⟨g', step ▸ hok,
          Finset.subset_union_left.trans hsub, hcl⟩
      · exact Or.inr ⟨n, step ▸ herr⟩

/-- C7: graph merge is commutative as triple sets, and merging a graph
with itself collapses the duplicate triples, leaving the graph
unchanged. -/
theorem merge_comm_and_collapse (A B : Graph) :
    merge A B = merge B A ∧ merge A A = A := by
  constructor
  · show A ∪ B = B ∪ A
    exact Finset.union_comm A B
  · show A ∪ A = A
    exact Finset.union_self A

end Ggen
